import Mathlib

/-!
Formal model of the English-auction program in
packages/contracts/programs/auction/src/lib.rs (Anchor / Solana).

Modelling conventions, stated once here:

* Pubkey is modelled as Nat, with 0 standing for Pubkey::default().
* u64 amounts are modelled as Nat and i64 timestamps as Int, with exact
  arithmetic: the workspace build settings are not part of src, and the
  specification states the bid-floor comparison is exact integer
  arithmetic with no wrap-around (with Anchor default overflow checks an
  overflow would abort the transaction, which the model folds into the
  same rejected-operation outcome).
* One auction is modelled per State; the two token vaults owned by the
  auction PDA are the assetVault and paymentVault balances.  Bid records
  are keyed by the bidder pubkey, mirroring the bid PDA seeds
  (b"bid", auction key, bidder key); the Bid field holding the owning
  auction reference and the PDA bump fields are constant identity
  metadata in a one-auction model and are omitted.
* Every executed token transfer is appended to a log, recording token
  kind, source account, destination account and amount, so that theorems
  can speak about exactly which transfers an operation performed.  The
  destination wallets are identified by the role the accounts structs
  document for them (winner, seller, previous bidder).
* The external Value Transfer Service can reject a transfer (insufficient
  balance, compliance veto).  Transfers out of a vault additionally fail
  in the model when the vault balance is below the amount; transfers
  whose source is an external wallet take a Boolean oracle argument
  deciding whether the external side succeeds.
* Anchor account constraints run before the instruction body: the init
  constraint on the bid PDA in PlaceBid (lib.rs lines 595-602) fails
  with an account-already-initialized error when a bid record for
  (auction, bidder) already exists, and this check precedes every
  require! in the body.
-/

namespace AuctionModel

abbrev Pubkey := Nat

inductive AuctionStatus
  | Created
  | Active
  | Settled
  | Cancelled
  | Failed
deriving DecidableEq

inductive BidStatus
  | Active
  | Outbid
  | Won
  | Refunded
  | Cancelled
deriving DecidableEq

/-- Auction account, lib.rs lines 425-458 (bump omitted, see header). -/
structure Auction where
  seller : Pubkey
  asset_mint : Pubkey
  payment_mint : Pubkey
  asset_amount : Nat
  starting_price : Nat
  reserve_price : Nat
  min_bid_increment : Nat
  current_bid : Nat
  current_bidder : Pubkey
  start_time : Int
  end_time : Int
  status : AuctionStatus
  total_bids : Nat
  created_at : Int
deriving DecidableEq

/-- Bid account, lib.rs lines 479-494 (auction reference and bump
omitted, see header). -/
structure Bid where
  bidder : Pubkey
  amount : Nat
  timestamp : Int
  status : BidStatus
deriving DecidableEq

inductive TokenKind
  | asset
  | payment
deriving DecidableEq

/-- Token accounts touched by transfers: the two auction vaults, and
external wallets identified by their owner role. -/
inductive Acct
  | assetVault
  | paymentVault
  | wallet (owner : Pubkey)
deriving DecidableEq

/-- One executed transfer_checked call. -/
structure Xfer where
  kind : TokenKind
  src : Acct
  dst : Acct
  amount : Nat
deriving DecidableEq

/-- Full state of one auction: the account data, the two vault balances,
the bid records keyed by bidder, and the transfer log. -/
structure State where
  auction : Auction
  assetVault : Nat
  paymentVault : Nat
  bids : List (Pubkey × Bid)
  log : List Xfer
deriving DecidableEq

/-- Program errors, lib.rs lines 812-850. -/
inductive AuctionError
  | InvalidAmount
  | InvalidPrice
  | InvalidReservePrice
  | InvalidIncrement
  | InvalidStartTime
  | InvalidEndTime
  | AuctionTooShort
  | AuctionNotActive
  | AuctionNotStarted
  | AuctionEnded
  | AuctionNotEnded
  | BidTooLow
  | SellerCannotBid
  | BidNotActive
  | CannotCancelWinningBid
  | Unauthorized
  | CannotCancelAuction
  | HasActiveBids
deriving DecidableEq

/-- Errors surfaced by an instruction: a program error, an Anchor
account-constraint failure, or a rejection by the external Value
Transfer Service. -/
inductive Err
  | program (e : AuctionError)
  | accountAlreadyInitialized
  | accountNotFound
  | transferFailed
deriving DecidableEq

/-- create_auction, lib.rs lines 16-84.  Returns the freshly created
State: the checks, the field initialisation, and the seller-to-vault
asset transfer (oracle sellerXferOk for the external side). -/
def create_auction (now : Int) (seller asset_mint payment_mint : Pubkey)
    (asset_amount starting_price reserve_price min_bid_increment : Nat)
    (start_time end_time : Int) (sellerXferOk : Bool) : Except Err State :=
  if asset_amount = 0 then .error (.program .InvalidAmount)
  else if starting_price = 0 then .error (.program .InvalidPrice)
  else if reserve_price < starting_price then .error (.program .InvalidReservePrice)
  else if min_bid_increment = 0 then .error (.program .InvalidIncrement)
  else if start_time < now then .error (.program .InvalidStartTime)
  else if end_time ≤ start_time then .error (.program .InvalidEndTime)
  else if end_time - start_time < 3600 then .error (.program .AuctionTooShort)
  else if sellerXferOk = false then .error .transferFailed
  else .ok
    { auction :=
        { seller := seller
          asset_mint := asset_mint
          payment_mint := payment_mint
          asset_amount := asset_amount
          starting_price := starting_price
          reserve_price := reserve_price
          min_bid_increment := min_bid_increment
          current_bid := 0
          current_bidder := 0
          start_time := start_time
          end_time := end_time
          status := AuctionStatus.Active
          total_bids := 0
          created_at := now }
      assetVault := asset_amount
      paymentVault := 0
      bids := []
      log := [⟨TokenKind.asset, Acct.wallet seller, Acct.assetVault, asset_amount⟩] }

/-- Resolves the bid record keyed by a bidder pubkey, mirroring bid PDA
address resolution for the seeds (b"bid", auction key, bidder key). -/
def lookupBid (x : Pubkey) : List (Pubkey × Bid) → Option Bid
  | [] => none
  | (k, b) :: t => if x = k then some b else lookupBid x t

/-- place_bid, lib.rs lines 87-195, with the init constraint of the
PlaceBid accounts struct (lines 595-602) checked first.  The refund leg
transfers to previous_bidder_payment_account, which the accounts struct
(lines 622-624) takes as an unchecked caller-supplied account with no
ownership constraint tying it to the previous leader, so the model takes
it as a free argument.  Oracles refundOk and escrowOk model the external
side of the refund transfer and of the bidder-to-vault escrow
transfer. -/
def place_bid (now : Int) (bidder : Pubkey) (bid_amount : Nat)
    (previous_bidder_payment_account : Pubkey)
    (refundOk escrowOk : Bool) (s : State) : Except Err State :=
  if (lookupBid bidder s.bids).isSome then .error .accountAlreadyInitialized
  else if ¬ s.auction.status = AuctionStatus.Active then .error (.program .AuctionNotActive)
  else if now < s.auction.start_time then .error (.program .AuctionNotStarted)
  else if s.auction.end_time ≤ now then .error (.program .AuctionEnded)
  else if bidder = s.auction.seller then .error (.program .SellerCannotBid)
  else if (s.auction.current_bid = 0 ∧ bid_amount < s.auction.starting_price) ∨
      (¬ s.auction.current_bid = 0 ∧
        bid_amount < s.auction.current_bid + s.auction.min_bid_increment) then
    .error (.program .BidTooLow)
  else if ¬ s.auction.current_bidder = 0 ∧ 0 < s.auction.current_bid then
    if s.paymentVault < s.auction.current_bid ∨ refundOk = false then .error .transferFailed
    else if escrowOk = false then .error .transferFailed
    else .ok
      { s with
        paymentVault := s.paymentVault - s.auction.current_bid + bid_amount
        bids := (bidder, ⟨bidder, bid_amount, now, BidStatus.Active⟩) :: s.bids
        auction :=
          { s.auction with
            current_bid := bid_amount
            current_bidder := bidder
            total_bids := s.auction.total_bids + 1
            end_time :=
              if s.auction.end_time - now < 600 then now + 600 else s.auction.end_time }
        log := s.log ++
          [⟨TokenKind.payment, Acct.paymentVault,
             Acct.wallet previous_bidder_payment_account, s.auction.current_bid⟩,
           ⟨TokenKind.payment, Acct.wallet bidder, Acct.paymentVault, bid_amount⟩] }
  else
    if escrowOk = false then .error .transferFailed
    else .ok
      { s with
        paymentVault := s.paymentVault + bid_amount
        bids := (bidder, ⟨bidder, bid_amount, now, BidStatus.Active⟩) :: s.bids
        auction :=
          { s.auction with
            current_bid := bid_amount
            current_bidder := bidder
            total_bids := s.auction.total_bids + 1
            end_time :=
              if s.auction.end_time - now < 600 then now + 600 else s.auction.end_time }
        log := s.log ++
          [⟨TokenKind.payment, Acct.wallet bidder, Acct.paymentVault, bid_amount⟩] }

/-- Rewrites the bid record of the given bidder to status Cancelled,
leaving every other record untouched. -/
def cancelBidRecord (caller : Pubkey) (l : List (Pubkey × Bid)) : List (Pubkey × Bid) :=
  l.map (fun p => if p.1 = caller then (p.1, { p.2 with status := BidStatus.Cancelled }) else p)

/-- cancel_bid, lib.rs lines 198-220.  The bid account is resolved from
the (auction, caller) seeds, so a caller with no record fails account
resolution. -/
def cancel_bid (caller : Pubkey) (s : State) : Except Err State :=
  match lookupBid caller s.bids with
  | none => .error .accountNotFound
  | some b =>
    if ¬ b.bidder = caller then .error (.program .Unauthorized)
    else if ¬ b.status = BidStatus.Active then .error (.program .BidNotActive)
    else if ¬ (¬ s.auction.current_bidder = b.bidder ∨
        s.auction.status = AuctionStatus.Cancelled) then
      .error (.program .CannotCancelWinningBid)
    else .ok { s with bids := cancelBidRecord caller s.bids }

/-- settle_auction, lib.rs lines 223-340.  The four destination
accounts of the SettleAuction accounts struct (lines 678-692) are
unchecked caller-supplied accounts: the CHECK comments document them as
the winner and seller accounts but no ownership constraint ties them to
the leader or the seller, and settlement is permissionless, so the model
takes all four as free arguments.  Oracles assetXferOk and paymentXferOk
model the external side of the asset payout and of the payment payout or
refund. -/
def settle_auction (now : Int)
    (winner_asset_account winner_payment_account : Pubkey)
    (seller_asset_account seller_payment_account : Pubkey)
    (assetXferOk paymentXferOk : Bool) (s : State) :
    Except Err State :=
  if ¬ s.auction.status = AuctionStatus.Active then .error (.program .AuctionNotActive)
  else if now < s.auction.end_time then .error (.program .AuctionNotEnded)
  else if s.auction.reserve_price ≤ s.auction.current_bid ∧
      ¬ s.auction.current_bidder = 0 then
    if s.assetVault < s.auction.asset_amount ∨ assetXferOk = false then .error .transferFailed
    else if s.paymentVault < s.auction.current_bid ∨ paymentXferOk = false then
      .error .transferFailed
    else .ok
      { s with
        assetVault := s.assetVault - s.auction.asset_amount
        paymentVault := s.paymentVault - s.auction.current_bid
        auction := { s.auction with status := AuctionStatus.Settled }
        log := s.log ++
          [⟨TokenKind.asset, Acct.assetVault, Acct.wallet winner_asset_account,
             s.auction.asset_amount⟩,
           ⟨TokenKind.payment, Acct.paymentVault, Acct.wallet seller_payment_account,
             s.auction.current_bid⟩] }
  else
    if s.assetVault < s.auction.asset_amount ∨ assetXferOk = false then .error .transferFailed
    else if ¬ s.auction.current_bidder = 0 ∧ 0 < s.auction.current_bid then
      if s.paymentVault < s.auction.current_bid ∨ paymentXferOk = false then
        .error .transferFailed
      else .ok
        { s with
          assetVault := s.assetVault - s.auction.asset_amount
          paymentVault := s.paymentVault - s.auction.current_bid
          auction := { s.auction with status := AuctionStatus.Failed }
          log := s.log ++
            [⟨TokenKind.asset, Acct.assetVault, Acct.wallet seller_asset_account,
               s.auction.asset_amount⟩,
             ⟨TokenKind.payment, Acct.paymentVault, Acct.wallet winner_payment_account,
               s.auction.current_bid⟩] }
    else .ok
      { s with
        assetVault := s.assetVault - s.auction.asset_amount
        auction := { s.auction with status := AuctionStatus.Failed }
        log := s.log ++
          [⟨TokenKind.asset, Acct.assetVault, Acct.wallet seller_asset_account,
             s.auction.asset_amount⟩] }

/-- cancel_auction, lib.rs lines 343-396, including the duplicated
seller check of line 351.  Oracle assetXferOk models the external side
of the asset return transfer. -/
def cancel_auction (authority : Pubkey) (assetXferOk : Bool) (s : State) :
    Except Err State :=
  if ¬ (s.auction.status = AuctionStatus.Created ∨
      s.auction.status = AuctionStatus.Active) then
    .error (.program .CannotCancelAuction)
  else if ¬ (s.auction.seller = authority ∨ authority = s.auction.seller) then
    .error (.program .Unauthorized)
  else if 0 < s.auction.total_bids ∧ ¬ s.auction.current_bid = 0 then
    .error (.program .HasActiveBids)
  else if s.assetVault < s.auction.asset_amount ∨ assetXferOk = false then
    .error .transferFailed
  else .ok
    { s with
      assetVault := s.assetVault - s.auction.asset_amount
      auction := { s.auction with status := AuctionStatus.Cancelled }
      log := s.log ++
        [⟨TokenKind.asset, Acct.assetVault, Acct.wallet s.auction.seller,
           s.auction.asset_amount⟩] }

/-- extend_auction, lib.rs lines 399-418. -/
def extend_auction (now : Int) (caller : Pubkey) (new_end_time : Int) (s : State) :
    Except Err State :=
  if ¬ s.auction.status = AuctionStatus.Active then .error (.program .AuctionNotActive)
  else if ¬ s.auction.seller = caller then .error (.program .Unauthorized)
  else if new_end_time ≤ s.auction.end_time then .error (.program .InvalidEndTime)
  else if s.auction.end_time ≤ now then .error (.program .AuctionEnded)
  else .ok { s with auction := { s.auction with end_time := new_end_time } }

/-- One mutating instruction against an existing auction, with its
arguments and transfer oracles. -/
inductive Op
  | placeBid (now : Int) (bidder : Pubkey) (amount : Nat)
      (previous_bidder_payment_account : Pubkey) (refundOk escrowOk : Bool)
  | cancelBid (caller : Pubkey)
  | settleAuction (now : Int)
      (winner_asset_account winner_payment_account : Pubkey)
      (seller_asset_account seller_payment_account : Pubkey)
      (assetXferOk paymentXferOk : Bool)
  | cancelAuction (authority : Pubkey) (assetXferOk : Bool)
  | extendAuction (now : Int) (caller : Pubkey) (new_end_time : Int)

/-- Executes the instruction body against a state snapshot. -/
def run : Op → State → Except Err State
  | .placeBid now bidder amount prevAcct refundOk escrowOk, s =>
      place_bid now bidder amount prevAcct refundOk escrowOk s
  | .cancelBid caller, s => cancel_bid caller s
  | .settleAuction now wa wp sa sp assetXferOk paymentXferOk, s =>
      settle_auction now wa wp sa sp assetXferOk paymentXferOk s
  | .cancelAuction authority assetXferOk, s => cancel_auction authority assetXferOk s
  | .extendAuction now caller new_end_time, s => extend_auction now caller new_end_time s

/-- Modelled from the spec: the surrounding ledger runtime (not part of
src) reverts every account mutation when an instruction returns an
error, so an operation either fully applies or fully fails; the
instruction handlers rely on this transaction rollback rather than
undoing their own writes (spec sections 5 and 7). -/
def commit (o : Op) (s : State) : State :=
  match run o s with
  | .ok s' => s'
  | .error _ => s

/-- The default pubkey (all zeros) has no corresponding private key, so
it can never be the signer of a transaction; operations whose caller
must sign therefore never carry the default identity. -/
def validSigner : Op → Prop
  | .placeBid _ bidder _ _ _ _ => ¬ bidder = 0
  | _ => True

/-- States reachable from a successful create_auction by any sequence of
successfully executed instructions. -/
inductive Reachable : State → Prop
  | created (now : Int) (seller asset_mint payment_mint : Pubkey)
      (asset_amount starting_price reserve_price min_bid_increment : Nat)
      (start_time end_time : Int) (sellerXferOk : Bool) (s : State)
      (h : create_auction now seller asset_mint payment_mint asset_amount starting_price
        reserve_price min_bid_increment start_time end_time sellerXferOk = .ok s) :
      Reachable s
  | step (s s' : State) (o : Op) (hv : validSigner o) (h : run o s = .ok s')
      (hr : Reachable s) : Reachable s'

/-- Inductive state invariant: the leader/bid correspondence, the
payment vault discipline before and after terminal states, the
positivity of the creation-checked floor parameters, and the bid
counter discipline. -/
def Inv (s : State) : Prop :=
  (s.auction.current_bid = 0 ↔ s.auction.current_bidder = 0) ∧
  ((s.auction.status = AuctionStatus.Created ∨ s.auction.status = AuctionStatus.Active) →
    s.paymentVault = s.auction.current_bid) ∧
  (¬ (s.auction.status = AuctionStatus.Created ∨ s.auction.status = AuctionStatus.Active) →
    s.paymentVault = 0) ∧
  0 < s.auction.starting_price ∧
  0 < s.auction.min_bid_increment ∧
  (s.auction.total_bids = 0 → s.auction.current_bid = 0)

/-- True exactly for the two instructions whose body can write end_time. -/
def Op.mutatesEndTime : Op → Bool
  | .placeBid _ _ _ _ _ _ => true
  | .extendAuction _ _ _ => true
  | _ => false

/-- Concrete auction from the specification scenario A: seller 1, asset
mint 2, payment mint 3, five asset tokens, starting price 100, reserve
150, increment 10, window [0, 3600); the state create_auction returns at
time 0. -/
def st0 : State :=
  { auction :=
      { seller := 1
        asset_mint := 2
        payment_mint := 3
        asset_amount := 5
        starting_price := 100
        reserve_price := 150
        min_bid_increment := 10
        current_bid := 0
        current_bidder := 0
        start_time := 0
        end_time := 3600
        status := AuctionStatus.Active
        total_bids := 0
        created_at := 0 }
    assetVault := 5
    paymentVault := 0
    bids := []
    log := [⟨TokenKind.asset, Acct.wallet 1, Acct.assetVault, 5⟩] }

/-- Scenario A after bidder 7 places 100 at time 0. -/
def st1 : State := commit (.placeBid 0 7 100 0 true true) st0

/-- Scenario A after bidder 8 then places 110 at time 0. -/
def st2 : State := commit (.placeBid 0 8 110 7 true true) st1

/-- Scenario A settled at time 3600 (failure path: 110 < 150). -/
def st2f : State := commit (.settleAuction 3600 8 8 1 1 true true) st2

/-- A state with starting_price = 0: rejected by create_auction, but
inside the for-all-u64-field-values quantification of the monotonic
increment claim. -/
def zeroFloorState : State :=
  { auction :=
      { seller := 1
        asset_mint := 2
        payment_mint := 3
        asset_amount := 5
        starting_price := 0
        reserve_price := 0
        min_bid_increment := 0
        current_bid := 0
        current_bidder := 0
        start_time := 0
        end_time := 3600
        status := AuctionStatus.Active
        total_bids := 0
        created_at := 0 }
    assetVault := 5
    paymentVault := 0
    bids := []
    log := [] }

/-- A state with min_bid_increment = 0 and a standing bid of 5:
rejected by create_auction, but inside the quantification of the
monotonic increment claim. -/
def zeroIncState : State :=
  { auction :=
      { seller := 1
        asset_mint := 2
        payment_mint := 3
        asset_amount := 5
        starting_price := 100
        reserve_price := 150
        min_bid_increment := 0
        current_bid := 5
        current_bidder := 7
        start_time := 0
        end_time := 3600
        status := AuctionStatus.Active
        total_bids := 1
        created_at := 0 }
    assetVault := 5
    paymentVault := 5
    bids := [(7, ⟨7, 5, 0, BidStatus.Active⟩)]
    log := [] }

/-- A live auction whose leader, bidder 7, already holds a Bid record;
current bid 100 escrowed in the payment vault. -/
def leaderState : State :=
  { auction :=
      { seller := 1
        asset_mint := 2
        payment_mint := 3
        asset_amount := 5
        starting_price := 100
        reserve_price := 150
        min_bid_increment := 10
        current_bid := 100
        current_bidder := 7
        start_time := 0
        end_time := 3600
        status := AuctionStatus.Active
        total_bids := 1
        created_at := 0 }
    assetVault := 5
    paymentVault := 100
    bids := [(7, ⟨7, 100, 0, BidStatus.Active⟩)]
    log := [⟨TokenKind.asset, Acct.wallet 1, Acct.assetVault, 5⟩,
      ⟨TokenKind.payment, Acct.wallet 7, Acct.paymentVault, 100⟩] }

/-- Success inversion for place_bid: the conditions the accepted path
passed and the resulting state, read off the definition. -/
theorem place_bid_ok_elim (now : Int) (bidder : Pubkey) (amount : Nat)
    (prevAcct : Pubkey) (refundOk escrowOk : Bool) (s s' : State)
    (hok : place_bid now bidder amount prevAcct refundOk escrowOk s = .ok s') :
    (lookupBid bidder s.bids).isSome = false ∧
    s.auction.status = AuctionStatus.Active ∧
    s.auction.start_time ≤ now ∧
    now < s.auction.end_time ∧
    ¬ bidder = s.auction.seller ∧
    (s.auction.current_bid = 0 → s.auction.starting_price ≤ amount) ∧
    (¬ s.auction.current_bid = 0 →
      s.auction.current_bid + s.auction.min_bid_increment ≤ amount) ∧
    s'.auction =
      { s.auction with
        current_bid := amount
        current_bidder := bidder
        total_bids := s.auction.total_bids + 1
        end_time :=
          if s.auction.end_time - now < 600 then now + 600 else s.auction.end_time } ∧
    s'.assetVault = s.assetVault ∧
    s'.bids = (bidder, ⟨bidder, amount, now, BidStatus.Active⟩) :: s.bids ∧
    s'.paymentVault =
      (if ¬ s.auction.current_bidder = 0 ∧ 0 < s.auction.current_bid then
        s.paymentVault - s.auction.current_bid + amount
      else s.paymentVault + amount) ∧
    (¬ s.auction.current_bidder = 0 ∧ 0 < s.auction.current_bid →
      s.auction.current_bid ≤ s.paymentVault) := by
  unfold place_bid at hok
  by_cases h1 : (lookupBid bidder s.bids).isSome = true
  · rw [if_pos h1] at hok
    cases hok
  rw [if_neg h1] at hok
  by_cases h2 : ¬ s.auction.status = AuctionStatus.Active
  · rw [if_pos h2] at hok
    cases hok
  rw [if_neg h2] at hok
  by_cases h3 : now < s.auction.start_time
  · rw [if_pos h3] at hok
    cases hok
  rw [if_neg h3] at hok
  by_cases h4 : s.auction.end_time ≤ now
  · rw [if_pos h4] at hok
    cases hok
  rw [if_neg h4] at hok
  by_cases h5 : bidder = s.auction.seller
  · rw [if_pos h5] at hok
    cases hok
  rw [if_neg h5] at hok
  by_cases h6 : (s.auction.current_bid = 0 ∧ amount < s.auction.starting_price) ∨
      (¬ s.auction.current_bid = 0 ∧
        amount < s.auction.current_bid + s.auction.min_bid_increment)
  · rw [if_pos h6] at hok
    cases hok
  rw [if_neg h6] at hok
  by_cases hcond : ¬ s.auction.current_bidder = 0 ∧ 0 < s.auction.current_bid
  · rw [if_pos hcond] at hok
    by_cases hpv : s.paymentVault < s.auction.current_bid ∨ refundOk = false
    · rw [if_pos hpv] at hok
      cases hok
    rw [if_neg hpv] at hok
    by_cases hesc : escrowOk = false
    · rw [if_pos hesc] at hok
      cases hok
    rw [if_neg hesc] at hok
    injection hok with h
    subst h
    refine ⟨?_, not_not.mp h2, by omega, by omega, h5,
      fun hcb => by omega, fun hcb => by omega, rfl, rfl, rfl,
      by rw [if_pos hcond], fun _ => le_of_not_lt (fun hlt => hpv (Or.inl hlt))⟩
    cases hb : (lookupBid bidder s.bids).isSome with
    | false => rfl
    | true => exact absurd hb h1
  · rw [if_neg hcond] at hok
    by_cases hesc : escrowOk = false
    · rw [if_pos hesc] at hok
      cases hok
    rw [if_neg hesc] at hok
    injection hok with h
    subst h
    refine ⟨?_, not_not.mp h2, by omega, by omega, h5,
      fun hcb => by omega, fun hcb => by omega, rfl, rfl, rfl,
      by rw [if_neg hcond], fun hc => absurd hc hcond⟩
    cases hb : (lookupBid bidder s.bids).isSome with
    | false => rfl
    | true => exact absurd hb h1

/-- Success inversion for settle_auction. -/
theorem settle_auction_ok_elim (now : Int)
    (winner_asset_account winner_payment_account : Pubkey)
    (seller_asset_account seller_payment_account : Pubkey)
    (assetXferOk paymentXferOk : Bool) (s s' : State)
    (hok : settle_auction now winner_asset_account winner_payment_account
      seller_asset_account seller_payment_account assetXferOk paymentXferOk s =
      .ok s') :
    s.auction.status = AuctionStatus.Active ∧
    s.auction.end_time ≤ now ∧
    s.auction.asset_amount ≤ s.assetVault ∧
    s'.assetVault = s.assetVault - s.auction.asset_amount ∧
    s'.bids = s.bids ∧
    s'.auction = { s.auction with status := s'.auction.status } ∧
    ((s.auction.reserve_price ≤ s.auction.current_bid ∧
        ¬ s.auction.current_bidder = 0) →
      s'.auction.status = AuctionStatus.Settled ∧
      s.auction.current_bid ≤ s.paymentVault ∧
      s'.paymentVault = s.paymentVault - s.auction.current_bid ∧
      s'.log = s.log ++
        [⟨TokenKind.asset, Acct.assetVault, Acct.wallet winner_asset_account,
           s.auction.asset_amount⟩,
         ⟨TokenKind.payment, Acct.paymentVault, Acct.wallet seller_payment_account,
           s.auction.current_bid⟩]) ∧
    (¬ (s.auction.reserve_price ≤ s.auction.current_bid ∧
        ¬ s.auction.current_bidder = 0) →
      s'.auction.status = AuctionStatus.Failed ∧
      ((¬ s.auction.current_bidder = 0 ∧ 0 < s.auction.current_bid) →
        s.auction.current_bid ≤ s.paymentVault ∧
        s'.paymentVault = s.paymentVault - s.auction.current_bid ∧
        s'.log = s.log ++
          [⟨TokenKind.asset, Acct.assetVault, Acct.wallet seller_asset_account,
             s.auction.asset_amount⟩,
           ⟨TokenKind.payment, Acct.paymentVault, Acct.wallet winner_payment_account,
             s.auction.current_bid⟩]) ∧
      (¬ (¬ s.auction.current_bidder = 0 ∧ 0 < s.auction.current_bid) →
        s'.paymentVault = s.paymentVault ∧
        s'.log = s.log ++
          [⟨TokenKind.asset, Acct.assetVault, Acct.wallet seller_asset_account,
             s.auction.asset_amount⟩])) := by
  unfold settle_auction at hok
  by_cases h1 : ¬ s.auction.status = AuctionStatus.Active
  · rw [if_pos h1] at hok
    cases hok
  rw [if_neg h1] at hok
  by_cases h2 : now < s.auction.end_time
  · rw [if_pos h2] at hok
    cases hok
  rw [if_neg h2] at hok
  by_cases hwin : s.auction.reserve_price ≤ s.auction.current_bid ∧
      ¬ s.auction.current_bidder = 0
  · rw [if_pos hwin] at hok
    by_cases hav : s.assetVault < s.auction.asset_amount ∨ assetXferOk = false
    · rw [if_pos hav] at hok
      cases hok
    rw [if_neg hav] at hok
    by_cases hpv : s.paymentVault < s.auction.current_bid ∨ paymentXferOk = false
    · rw [if_pos hpv] at hok
      cases hok
    rw [if_neg hpv] at hok
    injection hok with h
    subst h
    refine ⟨not_not.mp h1, by omega, le_of_not_lt (fun hlt => hav (Or.inl hlt)),
      rfl, rfl, rfl,
      fun _ => ⟨rfl, le_of_not_lt (fun hlt => hpv (Or.inl hlt)), rfl, rfl⟩,
      fun hcon => absurd hwin hcon⟩
  · rw [if_neg hwin] at hok
    by_cases hav : s.assetVault < s.auction.asset_amount ∨ assetXferOk = false
    · rw [if_pos hav] at hok
      cases hok
    rw [if_neg hav] at hok
    by_cases href : ¬ s.auction.current_bidder = 0 ∧ 0 < s.auction.current_bid
    · rw [if_pos href] at hok
      by_cases hpv : s.paymentVault < s.auction.current_bid ∨ paymentXferOk = false
      · rw [if_pos hpv] at hok
        cases hok
      rw [if_neg hpv] at hok
      injection hok with h
      subst h
      refine ⟨not_not.mp h1, by omega, le_of_not_lt (fun hlt => hav (Or.inl hlt)),
        rfl, rfl, rfl, fun hcon => absurd hcon hwin,
        fun _ => ⟨rfl,
          fun _ => ⟨le_of_not_lt (fun hlt => hpv (Or.inl hlt)), rfl, rfl⟩,
          fun hcon => absurd href hcon⟩⟩
    · rw [if_neg href] at hok
      injection hok with h
      subst h
      refine ⟨not_not.mp h1, by omega, le_of_not_lt (fun hlt => hav (Or.inl hlt)),
        rfl, rfl, rfl, fun hcon => absurd hcon hwin,
        fun _ => ⟨rfl, fun hc => absurd hc href, fun _ => ⟨rfl, rfl⟩⟩⟩

/-- Success inversion for cancel_auction. -/
theorem cancel_auction_ok_elim (authority : Pubkey) (assetXferOk : Bool)
    (s s' : State)
    (hok : cancel_auction authority assetXferOk s = .ok s') :
    (s.auction.status = AuctionStatus.Created ∨
      s.auction.status = AuctionStatus.Active) ∧
    authority = s.auction.seller ∧
    ¬ (0 < s.auction.total_bids ∧ ¬ s.auction.current_bid = 0) ∧
    s.auction.asset_amount ≤ s.assetVault ∧
    s'.auction = { s.auction with status := AuctionStatus.Cancelled } ∧
    s'.assetVault = s.assetVault - s.auction.asset_amount ∧
    s'.paymentVault = s.paymentVault ∧
    s'.bids = s.bids ∧
    s'.log = s.log ++
      [⟨TokenKind.asset, Acct.assetVault, Acct.wallet s.auction.seller,
         s.auction.asset_amount⟩] := by
  unfold cancel_auction at hok
  by_cases h1 : ¬ (s.auction.status = AuctionStatus.Created ∨
      s.auction.status = AuctionStatus.Active)
  · rw [if_pos h1] at hok
    cases hok
  rw [if_neg h1] at hok
  by_cases h2 : ¬ (s.auction.seller = authority ∨ authority = s.auction.seller)
  · rw [if_pos h2] at hok
    cases hok
  rw [if_neg h2] at hok
  by_cases h3 : 0 < s.auction.total_bids ∧ ¬ s.auction.current_bid = 0
  · rw [if_pos h3] at hok
    cases hok
  rw [if_neg h3] at hok
  by_cases h4 : s.assetVault < s.auction.asset_amount ∨ assetXferOk = false
  · rw [if_pos h4] at hok
    cases hok
  rw [if_neg h4] at hok
  injection hok with h
  subst h
  have hauth : authority = s.auction.seller := by
    rcases not_not.mp h2 with h | h
    · exact h.symm
    · exact h
  exact ⟨not_not.mp h1, hauth, h3, le_of_not_lt (fun hlt => h4 (Or.inl hlt)),
    rfl, rfl, rfl, rfl, rfl⟩

/-- Success inversion for cancel_bid. -/
theorem cancel_bid_ok_elim (caller : Pubkey) (s s' : State)
    (hok : cancel_bid caller s = .ok s') :
    (∃ b, lookupBid caller s.bids = some b ∧ b.bidder = caller ∧
      b.status = BidStatus.Active ∧
      (¬ s.auction.current_bidder = b.bidder ∨
        s.auction.status = AuctionStatus.Cancelled)) ∧
    s'.auction = s.auction ∧
    s'.assetVault = s.assetVault ∧
    s'.paymentVault = s.paymentVault ∧
    s'.log = s.log ∧
    s'.bids = cancelBidRecord caller s.bids := by
  unfold cancel_bid at hok
  cases heq : lookupBid caller s.bids with
  | none =>
      rw [heq] at hok
      cases hok
  | some b =>
      rw [heq] at hok
      simp only [] at hok
      by_cases hb1 : ¬ b.bidder = caller
      · rw [if_pos hb1] at hok
        cases hok
      rw [if_neg hb1] at hok
      by_cases hb2 : ¬ b.status = BidStatus.Active
      · rw [if_pos hb2] at hok
        cases hok
      rw [if_neg hb2] at hok
      by_cases hb3 : ¬ (¬ s.auction.current_bidder = b.bidder ∨
          s.auction.status = AuctionStatus.Cancelled)
      · rw [if_pos hb3] at hok
        cases hok
      rw [if_neg hb3] at hok
      injection hok with h
      subst h
      exact ⟨⟨b, rfl, not_not.mp hb1, not_not.mp hb2, not_not.mp hb3⟩,
        rfl, rfl, rfl, rfl, rfl⟩

/-- Success inversion for extend_auction. -/
theorem extend_auction_ok_elim (now : Int) (caller : Pubkey)
    (new_end_time : Int) (s s' : State)
    (hok : extend_auction now caller new_end_time s = .ok s') :
    s.auction.status = AuctionStatus.Active ∧
    s.auction.seller = caller ∧
    s.auction.end_time < new_end_time ∧
    now < s.auction.end_time ∧
    s'.auction = { s.auction with end_time := new_end_time } ∧
    s'.assetVault = s.assetVault ∧
    s'.paymentVault = s.paymentVault ∧
    s'.bids = s.bids ∧
    s'.log = s.log := by
  unfold extend_auction at hok
  by_cases h1 : ¬ s.auction.status = AuctionStatus.Active
  · rw [if_pos h1] at hok
    cases hok
  rw [if_neg h1] at hok
  by_cases h2 : ¬ s.auction.seller = caller
  · rw [if_pos h2] at hok
    cases hok
  rw [if_neg h2] at hok
  by_cases h3 : new_end_time ≤ s.auction.end_time
  · rw [if_pos h3] at hok
    cases hok
  rw [if_neg h3] at hok
  by_cases h4 : s.auction.end_time ≤ now
  · rw [if_pos h4] at hok
    cases hok
  rw [if_neg h4] at hok
  injection hok with h
  subst h
  exact ⟨not_not.mp h1, not_not.mp h2, by omega, by omega, rfl, rfl, rfl, rfl, rfl⟩

/-- Success inversion for create_auction. -/
theorem create_auction_ok_elim (now : Int) (seller asset_mint payment_mint : Pubkey)
    (asset_amount starting_price reserve_price min_bid_increment : Nat)
    (start_time end_time : Int) (sellerXferOk : Bool) (s : State)
    (hok : create_auction now seller asset_mint payment_mint asset_amount
      starting_price reserve_price min_bid_increment start_time end_time
      sellerXferOk = .ok s) :
    0 < asset_amount ∧ 0 < starting_price ∧ starting_price ≤ reserve_price ∧
    0 < min_bid_increment ∧ now ≤ start_time ∧ start_time < end_time ∧
    3600 ≤ end_time - start_time ∧
    s.auction =
      { seller := seller
        asset_mint := asset_mint
        payment_mint := payment_mint
        asset_amount := asset_amount
        starting_price := starting_price
        reserve_price := reserve_price
        min_bid_increment := min_bid_increment
        current_bid := 0
        current_bidder := 0
        start_time := start_time
        end_time := end_time
        status := AuctionStatus.Active
        total_bids := 0
        created_at := now } ∧
    s.assetVault = asset_amount ∧ s.paymentVault = 0 ∧ s.bids = [] ∧
    s.log = [⟨TokenKind.asset, Acct.wallet seller, Acct.assetVault, asset_amount⟩] := by
  unfold create_auction at hok
  by_cases h1 : asset_amount = 0
  · rw [if_pos h1] at hok
    cases hok
  rw [if_neg h1] at hok
  by_cases h2 : starting_price = 0
  · rw [if_pos h2] at hok
    cases hok
  rw [if_neg h2] at hok
  by_cases h3 : reserve_price < starting_price
  · rw [if_pos h3] at hok
    cases hok
  rw [if_neg h3] at hok
  by_cases h4 : min_bid_increment = 0
  · rw [if_pos h4] at hok
    cases hok
  rw [if_neg h4] at hok
  by_cases h5 : start_time < now
  · rw [if_pos h5] at hok
    cases hok
  rw [if_neg h5] at hok
  by_cases h6 : end_time ≤ start_time
  · rw [if_pos h6] at hok
    cases hok
  rw [if_neg h6] at hok
  by_cases h7 : end_time - start_time < 3600
  · rw [if_pos h7] at hok
    cases hok
  rw [if_neg h7] at hok
  by_cases h8 : sellerXferOk = false
  · rw [if_pos h8] at hok
    cases hok
  rw [if_neg h8] at hok
  injection hok with h
  subst h
  exact ⟨by omega, by omega, by omega, by omega, by omega, by omega, by omega,
    rfl, rfl, rfl, rfl, rfl⟩

/-- C9: end_time is monotonically non-decreasing across every operation on
an auction: the only mutations of end_time are extend_auction, which
requires the new end time to be strictly greater than the current one and
the current time to be before the current end time, and the anti-snipe
extension in place_bid, which fires only when it strictly increases
end_time; every other operation leaves end_time unchanged, so in every
reachable state end_time is at least every value it previously held. -/
theorem end_time_monotone (s s' : State) (o : Op) (hok : run o s = .ok s') :
    s.auction.end_time ≤ s'.auction.end_time ∧
    (Op.mutatesEndTime o = false → s'.auction.end_time = s.auction.end_time) := by
  cases o with
  | placeBid now bidder amount prevAcct refundOk escrowOk =>
      obtain ⟨-, -, -, h4, -, -, -, ha, -⟩ := place_bid_ok_elim _ _ _ _ _ _ _ _ hok
      constructor
      · rw [ha]
        simp only []
        split <;> omega
      · intro hfalse
        cases hfalse
  | cancelBid caller =>
      obtain ⟨-, ha, -⟩ := cancel_bid_ok_elim _ _ _ hok
      rw [ha]
      exact ⟨le_refl _, fun _ => rfl⟩
  | settleAuction now wa wp sa sp assetXferOk paymentXferOk =>
      obtain ⟨-, -, -, -, -, ha, -⟩ := settle_auction_ok_elim _ _ _ _ _ _ _ _ _ hok
      rw [ha]
      exact ⟨le_refl _, fun _ => rfl⟩
  | cancelAuction authority assetXferOk =>
      obtain ⟨-, -, -, -, ha, -⟩ := cancel_auction_ok_elim _ _ _ _ hok
      rw [ha]
      exact ⟨le_refl _, fun _ => rfl⟩
  | extendAuction now caller new_end_time =>
      obtain ⟨-, -, h3, -, ha, -⟩ := extend_auction_ok_elim _ _ _ _ _ hok
      constructor
      · rw [ha]
        simp only []
        omega
      · intro hfalse
        cases hfalse

/-- C10: settle_auction mutates only the status field of the auction
record: after settlement via either outcome every other auction field,
and every bid record, equals its pre-settlement value, so the winning
(or failed) bid and bidder remain readable on the closed record. -/
theorem settle_auction_frame (s s' : State) (now : Int)
    (winner_asset_account winner_payment_account : Pubkey)
    (seller_asset_account seller_payment_account : Pubkey)
    (assetXferOk paymentXferOk : Bool)
    (hok : run (.settleAuction now winner_asset_account winner_payment_account
      seller_asset_account seller_payment_account assetXferOk paymentXferOk) s =
      .ok s') :
    s'.auction.seller = s.auction.seller ∧
    s'.auction.asset_mint = s.auction.asset_mint ∧
    s'.auction.payment_mint = s.auction.payment_mint ∧
    s'.auction.asset_amount = s.auction.asset_amount ∧
    s'.auction.starting_price = s.auction.starting_price ∧
    s'.auction.reserve_price = s.auction.reserve_price ∧
    s'.auction.min_bid_increment = s.auction.min_bid_increment ∧
    s'.auction.current_bid = s.auction.current_bid ∧
    s'.auction.current_bidder = s.auction.current_bidder ∧
    s'.auction.start_time = s.auction.start_time ∧
    s'.auction.end_time = s.auction.end_time ∧
    s'.auction.total_bids = s.auction.total_bids ∧
    s'.auction.created_at = s.auction.created_at ∧
    s'.bids = s.bids := by
  obtain ⟨-, -, -, -, hb, ha, -⟩ := settle_auction_ok_elim _ _ _ _ _ _ _ _ _ hok
  rw [ha]
  exact ⟨rfl, rfl, rfl, rfl, rfl, rfl, rfl, rfl, rfl, rfl, rfl, rfl, rfl, hb⟩

/-- C6: anti-snipe extension: for every accepted bid placement, if
end_time - now < 600 at placement time then end_time becomes exactly
now + 600; if end_time - now >= 600 the placement leaves end_time
unchanged. -/
theorem place_bid_antisnipe (s s' : State) (now : Int) (bidder : Pubkey)
    (amount : Nat) (prevAcct : Pubkey) (refundOk escrowOk : Bool)
    (hok : run (.placeBid now bidder amount prevAcct refundOk escrowOk) s = .ok s') :
    (s.auction.end_time - now < 600 → s'.auction.end_time = now + 600) ∧
    (600 ≤ s.auction.end_time - now → s'.auction.end_time = s.auction.end_time) := by
  obtain ⟨-, -, -, -, -, -, -, ha, -⟩ := place_bid_ok_elim _ _ _ _ _ _ _ _ hok
  rw [ha]
  constructor
  · intro hm
    simp only []
    rw [if_pos hm]
  · intro hm
    simp only []
    rw [if_neg (by omega)]

/-- C4: atomicity on custody-transfer failure: for every operation, if
the instruction body returns an error (in particular when any custody
transfer inside it fails), the committed state equals the pre-operation
state in every component: no auction field, bid record, or vault balance
differs, so in place_bid no refund-without-credit state is ever
observable. -/
theorem op_error_rollback (s : State) (o : Op) (e : Err)
    (h : run o s = .error e) :
    (commit o s).auction = s.auction ∧
    (commit o s).assetVault = s.assetVault ∧
    (commit o s).paymentVault = s.paymentVault ∧
    (commit o s).bids = s.bids ∧
    (commit o s).log = s.log := by
  have hc : commit o s = s := by
    unfold commit
    rw [h]
  rw [hc]
  exact ⟨rfl, rfl, rfl, rfl, rfl⟩

/-- The state returned by a successful create_auction satisfies Inv. -/
theorem inv_created (now : Int) (seller asset_mint payment_mint : Pubkey)
    (asset_amount starting_price reserve_price min_bid_increment : Nat)
    (start_time end_time : Int) (sellerXferOk : Bool) (s : State)
    (hok : create_auction now seller asset_mint payment_mint asset_amount
      starting_price reserve_price min_bid_increment start_time end_time
      sellerXferOk = .ok s) : Inv s := by
  obtain ⟨h1, h2, h3, h4, h5, h6, h7, ha, hav, hpv, hb, hl⟩ :=
    create_auction_ok_elim _ _ _ _ _ _ _ _ _ _ _ _ hok
  unfold Inv
  rw [ha, hpv]
  exact ⟨Iff.rfl, fun _ => rfl, fun _ => rfl, h2, h4, fun _ => rfl⟩

/-- A successful place_bid by a real signer preserves Inv. -/
theorem inv_place_bid (now : Int) (bidder : Pubkey) (amount : Nat)
    (prevAcct : Pubkey) (refundOk escrowOk : Bool) (s s' : State)
    (hbidder : ¬ bidder = 0)
    (hok : place_bid now bidder amount prevAcct refundOk escrowOk s = .ok s')
    (hinv : Inv s) : Inv s' := by
  obtain ⟨hiff, hpvA, hpvT, hsp, hinc, htb⟩ := hinv
  obtain ⟨h1, h2, h3, h4, h5, hfl0, hfl1, ha, hav, hb, hpv, hrefl⟩ :=
    place_bid_ok_elim _ _ _ _ _ _ _ _ hok
  have hamt : 0 < amount := by
    by_cases hcb : s.auction.current_bid = 0
    · have := hfl0 hcb
      omega
    · have := hfl1 hcb
      omega
  have hpveq : s.paymentVault = s.auction.current_bid := hpvA (Or.inr h2)
  have c1 : s'.auction.current_bid = amount := by rw [ha]
  have c2 : s'.auction.current_bidder = bidder := by rw [ha]
  have c3 : s'.auction.status = s.auction.status := by rw [ha]
  have c4 : s'.auction.starting_price = s.auction.starting_price := by rw [ha]
  have c5 : s'.auction.min_bid_increment = s.auction.min_bid_increment := by rw [ha]
  have c6 : s'.auction.total_bids = s.auction.total_bids + 1 := by rw [ha]
  have hpv' : s'.paymentVault = amount := by
    rw [hpv]
    split
    · omega
    · rename_i hc
      have hcb : s.auction.current_bid = 0 := by
        by_contra hne
        exact hc ⟨fun hb0 => hne (hiff.mpr hb0), Nat.pos_of_ne_zero hne⟩
      omega
  refine ⟨?_, ?_, ?_, ?_, ?_, ?_⟩
  · rw [c1, c2]
    exact iff_of_false (by omega) hbidder
  · intro _
    rw [hpv', c1]
  · intro hterm
    rw [c3] at hterm
    exact absurd (Or.inr h2) hterm
  · rw [c4]
    exact hsp
  · rw [c5]
    exact hinc
  · rw [c6]
    intro hcc
    omega

/-- A successful settle_auction preserves Inv. -/
theorem inv_settle (now : Int)
    (winner_asset_account winner_payment_account : Pubkey)
    (seller_asset_account seller_payment_account : Pubkey)
    (assetXferOk paymentXferOk : Bool) (s s' : State)
    (hok : settle_auction now winner_asset_account winner_payment_account
      seller_asset_account seller_payment_account assetXferOk paymentXferOk s =
      .ok s')
    (hinv : Inv s) : Inv s' := by
  obtain ⟨hiff, hpvA, hpvT, hsp, hinc, htb⟩ := hinv
  obtain ⟨hact, hend, havle, hav, hb, ha, hwinC, hfailC⟩ :=
    settle_auction_ok_elim _ _ _ _ _ _ _ _ _ hok
  have hpveq : s.paymentVault = s.auction.current_bid := hpvA (Or.inr hact)
  have c1 : s'.auction.current_bid = s.auction.current_bid := by rw [ha]
  have c2 : s'.auction.current_bidder = s.auction.current_bidder := by rw [ha]
  have c4 : s'.auction.starting_price = s.auction.starting_price := by rw [ha]
  have c5 : s'.auction.min_bid_increment = s.auction.min_bid_increment := by rw [ha]
  have c6 : s'.auction.total_bids = s.auction.total_bids := by rw [ha]
  have hstat : s'.auction.status = AuctionStatus.Settled ∨
      s'.auction.status = AuctionStatus.Failed := by
    by_cases hwin : s.auction.reserve_price ≤ s.auction.current_bid ∧
        ¬ s.auction.current_bidder = 0
    · exact Or.inl (hwinC hwin).1
    · exact Or.inr (hfailC hwin).1
  have hpv0 : s'.paymentVault = 0 := by
    by_cases hwin : s.auction.reserve_price ≤ s.auction.current_bid ∧
        ¬ s.auction.current_bidder = 0
    · obtain ⟨-, hle, hp, -⟩ := hwinC hwin
      omega
    · obtain ⟨-, hrefY, hrefN⟩ := hfailC hwin
      by_cases href : ¬ s.auction.current_bidder = 0 ∧ 0 < s.auction.current_bid
      · obtain ⟨hle, hp, -⟩ := hrefY href
        omega
      · obtain ⟨hp, -⟩ := hrefN href
        have hcb : s.auction.current_bid = 0 := by
          by_contra hne
          exact href ⟨fun hb0 => hne (hiff.mpr hb0), Nat.pos_of_ne_zero hne⟩
        omega
  refine ⟨?_, ?_, ?_, ?_, ?_, ?_⟩
  · rw [c1, c2]
    exact hiff
  · intro hA
    rcases hstat with h | h <;> rw [h] at hA <;> rcases hA with h2 | h2 <;> cases h2
  · intro _
    exact hpv0
  · rw [c4]
    exact hsp
  · rw [c5]
    exact hinc
  · rw [c6, c1]
    exact htb

/-- A successful cancel_auction preserves Inv. -/
theorem inv_cancel_auction (authority : Pubkey) (assetXferOk : Bool)
    (s s' : State) (hok : cancel_auction authority assetXferOk s = .ok s')
    (hinv : Inv s) : Inv s' := by
  obtain ⟨hiff, hpvA, hpvT, hsp, hinc, htb⟩ := hinv
  obtain ⟨hstat, hauth, hnob, hle, ha, hav, hpv, hb, hl⟩ :=
    cancel_auction_ok_elim _ _ _ _ hok
  have hcb : s.auction.current_bid = 0 := by
    by_cases h0 : s.auction.total_bids = 0
    · exact htb h0
    · by_contra hne
      exact hnob ⟨Nat.pos_of_ne_zero h0, hne⟩
  have hpveq : s.paymentVault = 0 := by
    rw [hpvA hstat, hcb]
  have c1 : s'.auction.current_bid = s.auction.current_bid := by rw [ha]
  have c2 : s'.auction.current_bidder = s.auction.current_bidder := by rw [ha]
  have c3 : s'.auction.status = AuctionStatus.Cancelled := by rw [ha]
  have c4 : s'.auction.starting_price = s.auction.starting_price := by rw [ha]
  have c5 : s'.auction.min_bid_increment = s.auction.min_bid_increment := by rw [ha]
  have c6 : s'.auction.total_bids = s.auction.total_bids := by rw [ha]
  refine ⟨?_, ?_, ?_, ?_, ?_, ?_⟩
  · rw [c1, c2]
    exact hiff
  · intro hA
    rw [c3] at hA
    rcases hA with h2 | h2 <;> cases h2
  · intro _
    rw [hpv, hpveq]
  · rw [c4]
    exact hsp
  · rw [c5]
    exact hinc
  · rw [c6, c1]
    exact htb

/-- A successful cancel_bid preserves Inv. -/
theorem inv_cancel_bid (caller : Pubkey) (s s' : State)
    (hok : cancel_bid caller s = .ok s') (hinv : Inv s) : Inv s' := by
  obtain ⟨-, ha, hav, hpv, hl, hb⟩ := cancel_bid_ok_elim _ _ _ hok
  unfold Inv
  rw [ha, hpv]
  exact hinv

/-- A successful extend_auction preserves Inv. -/
theorem inv_extend (now : Int) (caller : Pubkey) (new_end_time : Int)
    (s s' : State) (hok : extend_auction now caller new_end_time s = .ok s')
    (hinv : Inv s) : Inv s' := by
  obtain ⟨hact, -, -, -, ha, hav, hpv, hb, hl⟩ :=
    extend_auction_ok_elim _ _ _ _ _ hok
  obtain ⟨hiff, hpvA, hpvT, hsp, hinc, htb⟩ := hinv
  have c1 : s'.auction.current_bid = s.auction.current_bid := by rw [ha]
  have c2 : s'.auction.current_bidder = s.auction.current_bidder := by rw [ha]
  have c3 : s'.auction.status = s.auction.status := by rw [ha]
  have c4 : s'.auction.starting_price = s.auction.starting_price := by rw [ha]
  have c5 : s'.auction.min_bid_increment = s.auction.min_bid_increment := by rw [ha]
  have c6 : s'.auction.total_bids = s.auction.total_bids := by rw [ha]
  refine ⟨?_, ?_, ?_, ?_, ?_, ?_⟩
  · rw [c1, c2]
    exact hiff
  · intro hA
    rw [c3] at hA
    rw [hpv, c1]
    exact hpvA hA
  · intro hT
    rw [c3] at hT
    rw [hpv]
    exact hpvT hT
  · rw [c4]
    exact hsp
  · rw [c5]
    exact hinc
  · rw [c6, c1]
    exact htb

/-- Every reachable state satisfies Inv. -/
theorem reach_inv (s : State) (hr : Reachable s) : Inv s := by
  induction hr with
  | created now seller asset_mint payment_mint asset_amount starting_price
      reserve_price min_bid_increment start_time end_time sellerXferOk s h =>
      exact inv_created _ _ _ _ _ _ _ _ _ _ _ _ h
  | step s s' o hv h hr ih =>
      cases o with
      | placeBid now bidder amount prevAcct refundOk escrowOk =>
          exact inv_place_bid _ _ _ _ _ _ _ _ hv h ih
      | cancelBid caller => exact inv_cancel_bid _ _ _ h ih
      | settleAuction now wa wp sa sp assetXferOk paymentXferOk =>
          exact inv_settle _ _ _ _ _ _ _ _ _ h ih
      | cancelAuction authority assetXferOk =>
          exact inv_cancel_auction _ _ _ _ h ih
      | extendAuction now caller new_end_time =>
          exact inv_extend _ _ _ _ _ h ih

/-- C2: in every auction state reachable by any sequence of operations,
current_bid equals zero exactly when current_bidder is absent (the
default identity); while the auction is not terminal the payment vault
balance equals current_bid (each accepted placement refunds the previous
escrow and escrows the new amount); once a terminal operation has run
the payment vault is empty. -/
theorem auction_state_invariant (s : State) (hr : Reachable s) :
    (s.auction.current_bid = 0 ↔ s.auction.current_bidder = 0) ∧
    ((s.auction.status = AuctionStatus.Created ∨
        s.auction.status = AuctionStatus.Active) →
      s.paymentVault = s.auction.current_bid) ∧
    (¬ (s.auction.status = AuctionStatus.Created ∨
        s.auction.status = AuctionStatus.Active) →
      s.paymentVault = 0) := by
  obtain ⟨h1, h2, h3, -, -, -⟩ := reach_inv s hr
  exact ⟨h1, h2, h3⟩

/-- C1 counterexample: settlement is permissionless and the four
destination accounts of SettleAuction are unchecked caller-supplied
accounts, so a settler can pass an account that belongs to neither the
leader nor the seller: settling the scenario A auction (leader 8,
seller 1) with every destination slot set to account 9 succeeds, and
both the asset and the escrowed payment leave the vaults toward account
9 rather than toward the leader or the seller the claim names. -/
theorem settle_destination_cex :
    run (.settleAuction 3600 9 9 9 9 true true) st2 =
      .ok (commit (.settleAuction 3600 9 9 9 9 true true) st2) ∧
    st2.auction.current_bidder = 8 ∧
    st2.auction.seller = 1 ∧
    ¬ (9 : Pubkey) = st2.auction.current_bidder ∧
    ¬ (9 : Pubkey) = st2.auction.seller ∧
    (commit (.settleAuction 3600 9 9 9 9 true true) st2).log =
      st2.log ++
        [⟨TokenKind.asset, Acct.assetVault, Acct.wallet 9, 5⟩,
         ⟨TokenKind.payment, Acct.paymentVault, Acct.wallet 9, 110⟩] := by
  exact ⟨rfl, rfl, rfl, by decide, by decide, rfl⟩

/-- C1 (amended): for every auction with status Active, current time at
or past end_time, vault balances matching the auction fields (as in
every reachable state), settle_auction, when it succeeds, resolves into
exactly one of two outcomes: if current_bid is at least reserve_price
and a leader exists it transfers asset_amount from the asset vault to
the caller-supplied winner_asset_account and current_bid from the
payment vault to the caller-supplied seller_payment_account and sets
status Settled; otherwise it transfers asset_amount from the asset vault
to the caller-supplied seller_asset_account, transfers current_bid from
the payment vault to the caller-supplied winner_payment_account when a
leader exists, and sets status Failed; in both outcomes both vault
balances are zero afterward.  The destination accounts are documented as
the winner and seller accounts but carry no ownership constraint, so the
program itself does not guarantee the funds reach the leader or the
seller. -/
theorem settle_auction_dichotomy (s s' : State) (now : Int)
    (winner_asset_account winner_payment_account : Pubkey)
    (seller_asset_account seller_payment_account : Pubkey)
    (assetXferOk paymentXferOk : Bool)
    (_hact : s.auction.status = AuctionStatus.Active)
    (_hend : s.auction.end_time ≤ now)
    (hpv : s.paymentVault = s.auction.current_bid)
    (hav : s.assetVault = s.auction.asset_amount)
    (hiff : s.auction.current_bid = 0 ↔ s.auction.current_bidder = 0)
    (hok : run (.settleAuction now winner_asset_account winner_payment_account
      seller_asset_account seller_payment_account assetXferOk paymentXferOk) s =
      .ok s') :
    s'.assetVault = 0 ∧ s'.paymentVault = 0 ∧
    (if s.auction.reserve_price ≤ s.auction.current_bid ∧
        ¬ s.auction.current_bidder = 0 then
      s'.auction.status = AuctionStatus.Settled ∧
      s'.log = s.log ++
        [⟨TokenKind.asset, Acct.assetVault, Acct.wallet winner_asset_account,
           s.auction.asset_amount⟩,
         ⟨TokenKind.payment, Acct.paymentVault, Acct.wallet seller_payment_account,
           s.auction.current_bid⟩]
    else
      s'.auction.status = AuctionStatus.Failed ∧
      s'.log = s.log ++
        [⟨TokenKind.asset, Acct.assetVault, Acct.wallet seller_asset_account,
           s.auction.asset_amount⟩] ++
        (if ¬ s.auction.current_bidder = 0 then
          [⟨TokenKind.payment, Acct.paymentVault, Acct.wallet winner_payment_account,
             s.auction.current_bid⟩]
        else [])) := by
  obtain ⟨-, -, -, hseq, -, -, hwinC, hfailC⟩ := settle_auction_ok_elim _ _ _ _ _ _ _ _ _ hok
  have hpv0 : s'.paymentVault = 0 := by
    by_cases hwin : s.auction.reserve_price ≤ s.auction.current_bid ∧
        ¬ s.auction.current_bidder = 0
    · obtain ⟨-, hle, hp, -⟩ := hwinC hwin
      omega
    · obtain ⟨-, hrefY, hrefN⟩ := hfailC hwin
      by_cases href : ¬ s.auction.current_bidder = 0 ∧ 0 < s.auction.current_bid
      · obtain ⟨hle, hp, -⟩ := hrefY href
        omega
      · obtain ⟨hp, -⟩ := hrefN href
        have hcb0 : s.auction.current_bid = 0 := by
          by_cases hbne : s.auction.current_bidder = 0
          · exact hiff.mpr hbne
          · by_cases hcb : 0 < s.auction.current_bid
            · exact absurd ⟨hbne, hcb⟩ href
            · omega
        omega
  refine ⟨by omega, hpv0, ?_⟩
  by_cases hwin : s.auction.reserve_price ≤ s.auction.current_bid ∧
      ¬ s.auction.current_bidder = 0
  · rw [if_pos hwin]
    obtain ⟨hstat, -, -, hlog⟩ := hwinC hwin
    exact ⟨hstat, hlog⟩
  · rw [if_neg hwin]
    obtain ⟨hstat, hrefY, hrefN⟩ := hfailC hwin
    refine ⟨hstat, ?_⟩
    by_cases href : ¬ s.auction.current_bidder = 0 ∧ 0 < s.auction.current_bid
    · obtain ⟨-, -, hlog⟩ := hrefY href
      rw [if_pos href.1, hlog]
      simp
    · have hb0 : s.auction.current_bidder = 0 := by
        by_contra hbne
        have hcb0 : s.auction.current_bid = 0 := by
          by_cases hcb : 0 < s.auction.current_bid
          · exact absurd ⟨hbne, hcb⟩ href
          · omega
        exact hbne (hiff.mp hcb0)
      obtain ⟨-, hlog⟩ := hrefN href
      rw [if_neg (not_not_intro hb0), hlog]
      simp

/-- C3 counterexample: the claim quantifies over all u64 values of the
auction fields, but with starting_price = 0 a bid of 0 is accepted
without strictly increasing current_bid, and with min_bid_increment = 0
a bid equal to the standing bid is accepted without strictly increasing
current_bid (both field values are rejected by create_auction but are
inside the quantification of the claim). -/
theorem place_bid_strict_increase_cex :
    (run (.placeBid 0 7 0 0 true true) zeroFloorState =
      .ok (commit (.placeBid 0 7 0 0 true true) zeroFloorState) ∧
     (commit (.placeBid 0 7 0 0 true true) zeroFloorState).auction.current_bid =
      zeroFloorState.auction.current_bid) ∧
    (run (.placeBid 0 8 5 7 true true) zeroIncState =
      .ok (commit (.placeBid 0 8 5 7 true true) zeroIncState) ∧
     (commit (.placeBid 0 8 5 7 true true) zeroIncState).auction.current_bid =
      zeroIncState.auction.current_bid) := by
  exact ⟨⟨rfl, rfl⟩, ⟨rfl, rfl⟩⟩

/-- C3 (amended): for auctions whose floor parameters satisfy the
creation checks, namely starting_price > 0 and min_bid_increment > 0 (as
every auction admitted by create_auction does), every successful
place_bid strictly increases current_bid, with amount at least
starting_price when no leader exists and at least
current_bid + min_bid_increment (exact integer arithmetic) otherwise;
and when the earlier guards pass, any lower amount is rejected with the
BidTooLow error. -/
theorem place_bid_monotonic (s : State) (now : Int) (bidder : Pubkey)
    (amount : Nat) (prevAcct : Pubkey) (refundOk escrowOk : Bool)
    (hsp : 0 < s.auction.starting_price)
    (hinc : 0 < s.auction.min_bid_increment) :
    (∀ s', run (.placeBid now bidder amount prevAcct refundOk escrowOk) s = .ok s' →
      s.auction.current_bid < s'.auction.current_bid ∧
      s'.auction.current_bid = amount ∧
      (s.auction.current_bid = 0 → s.auction.starting_price ≤ amount) ∧
      (¬ s.auction.current_bid = 0 →
        s.auction.current_bid + s.auction.min_bid_increment ≤ amount)) ∧
    ((lookupBid bidder s.bids).isSome = false →
      s.auction.status = AuctionStatus.Active →
      s.auction.start_time ≤ now → now < s.auction.end_time →
      ¬ bidder = s.auction.seller →
      (s.auction.current_bid = 0 → amount < s.auction.starting_price) →
      (¬ s.auction.current_bid = 0 →
        amount < s.auction.current_bid + s.auction.min_bid_increment) →
      run (.placeBid now bidder amount prevAcct refundOk escrowOk) s =
        .error (.program .BidTooLow)) := by
  constructor
  · intro s' hok
    obtain ⟨-, -, -, -, -, hfl0, hfl1, ha, -⟩ := place_bid_ok_elim _ _ _ _ _ _ _ _ hok
    have c1 : s'.auction.current_bid = amount := by rw [ha]
    refine ⟨?_, c1, hfl0, hfl1⟩
    rw [c1]
    by_cases hcb : s.auction.current_bid = 0
    · have := hfl0 hcb
      omega
    · have := hfl1 hcb
      omega
  · intro h1 h2 h3 h4 h5 hl0 hl1
    have hcond : (s.auction.current_bid = 0 ∧ amount < s.auction.starting_price) ∨
        (¬ s.auction.current_bid = 0 ∧
          amount < s.auction.current_bid + s.auction.min_bid_increment) := by
      by_cases hcb : s.auction.current_bid = 0
      · exact Or.inl ⟨hcb, hl0 hcb⟩
      · exact Or.inr ⟨hcb, hl1 hcb⟩
    show place_bid now bidder amount prevAcct refundOk escrowOk s =
      .error (.program .BidTooLow)
    unfold place_bid
    rw [if_neg (by simp [h1]), if_neg (not_not_intro h2),
      if_neg (not_lt.mpr h3), if_neg (not_le.mpr h4), if_neg h5, if_pos hcond]

/-- C5 counterexample: the current leader of a live auction attempts a
further bid that satisfies the bid floor, and place_bid fails at bid
account initialization (the bid PDA for this (auction, bidder) pair
already exists) rather than succeeding; the committed state is
unchanged. -/
theorem leader_rebid_cex :
    leaderState.auction.current_bidder = 7 ∧
    leaderState.auction.status = AuctionStatus.Active ∧
    leaderState.auction.current_bid + leaderState.auction.min_bid_increment ≤ 120 ∧
    run (.placeBid 5 7 120 7 true true) leaderState =
      .error .accountAlreadyInitialized ∧
    commit (.placeBid 5 7 120 7 true true) leaderState = leaderState := by
  exact ⟨rfl, rfl, by decide, rfl, rfl⟩

/-- C5 (amended): a further bid by any bidder who already holds a Bid
record for this auction, in particular the current leader, is rejected
at bid-account initialization before any check or transfer of the
instruction body runs, leaving the state unchanged; place_bid contains
no separate guard against leader re-bidding, and no refund-then-redeposit
takes place. -/
theorem place_bid_rebid_blocked (s : State) (now : Int) (bidder : Pubkey)
    (amount : Nat) (prevAcct : Pubkey) (refundOk escrowOk : Bool)
    (h : (lookupBid bidder s.bids).isSome = true) :
    run (.placeBid now bidder amount prevAcct refundOk escrowOk) s =
      .error .accountAlreadyInitialized ∧
    commit (.placeBid now bidder amount prevAcct refundOk escrowOk) s = s := by
  have hrun : run (.placeBid now bidder amount prevAcct refundOk escrowOk) s =
      .error .accountAlreadyInitialized := by
    show place_bid now bidder amount prevAcct refundOk escrowOk s = _
    unfold place_bid
    rw [if_pos h]
  refine ⟨hrun, ?_⟩
  unfold commit
  rw [hrun]

/-- C7: cancel_auction succeeds exactly when the auction status is
Created or Active, the caller is the seller, and total_bids is zero or
current_bid is zero (given the asset vault can cover the asset return
and the external transfer succeeds); a seller cancelling with bids
recorded while current_bid is nonzero is rejected with the
has-active-bids error; on success it transfers asset_amount from the
asset vault to the seller, sets status Cancelled, and performs no
transfer from the payment vault. -/
theorem cancel_auction_spec (s : State) (authority : Pubkey)
    (hav : s.auction.asset_amount ≤ s.assetVault) :
    ((∃ s', run (.cancelAuction authority true) s = .ok s') ↔
      ((s.auction.status = AuctionStatus.Created ∨
          s.auction.status = AuctionStatus.Active) ∧
        authority = s.auction.seller ∧
        (s.auction.total_bids = 0 ∨ s.auction.current_bid = 0))) ∧
    (∀ s', run (.cancelAuction authority true) s = .ok s' →
      s'.auction.status = AuctionStatus.Cancelled ∧
      s'.paymentVault = s.paymentVault ∧
      s'.assetVault = s.assetVault - s.auction.asset_amount ∧
      s'.log = s.log ++
        [⟨TokenKind.asset, Acct.assetVault, Acct.wallet s.auction.seller,
           s.auction.asset_amount⟩]) ∧
    ((s.auction.status = AuctionStatus.Created ∨
        s.auction.status = AuctionStatus.Active) →
      authority = s.auction.seller →
      0 < s.auction.total_bids → ¬ s.auction.current_bid = 0 →
      run (.cancelAuction authority true) s =
        .error (.program .HasActiveBids)) := by
  refine ⟨⟨?_, ?_⟩, ?_, ?_⟩
  · rintro ⟨s', hok⟩
    obtain ⟨hstat, hauth, hnob, -⟩ := cancel_auction_ok_elim _ _ _ _ hok
    refine ⟨hstat, hauth, ?_⟩
    by_cases h0 : s.auction.total_bids = 0
    · exact Or.inl h0
    · right
      by_contra hne
      exact hnob ⟨Nat.pos_of_ne_zero h0, hne⟩
  · rintro ⟨hstat, hauth, hor⟩
    have hc3 : ¬ (0 < s.auction.total_bids ∧ ¬ s.auction.current_bid = 0) := by
      rcases hor with h | h
      · intro hcc
        omega
      · intro hcc
        exact hcc.2 h
    have hc4 : ¬ (s.assetVault < s.auction.asset_amount ∨ (true : Bool) = false) := by
      rintro (h | h)
      · omega
      · cases h
    refine ⟨{ s with
        assetVault := s.assetVault - s.auction.asset_amount
        auction := { s.auction with status := AuctionStatus.Cancelled }
        log := s.log ++
          [⟨TokenKind.asset, Acct.assetVault, Acct.wallet s.auction.seller,
             s.auction.asset_amount⟩] }, ?_⟩
    show cancel_auction authority true s = _
    unfold cancel_auction
    rw [if_neg (not_not_intro hstat), if_neg (not_not_intro (Or.inr hauth)),
      if_neg hc3, if_neg hc4]
  · intro s' hok
    obtain ⟨-, -, -, -, ha, haveq, hpv, -, hl⟩ := cancel_auction_ok_elim _ _ _ _ hok
    exact ⟨by rw [ha], hpv, haveq, hl⟩
  · intro hstat hauth htb hcb
    show cancel_auction authority true s = _
    unfold cancel_auction
    rw [if_neg (not_not_intro hstat), if_neg (not_not_intro (Or.inr hauth)),
      if_pos ⟨htb, hcb⟩]

/-- Bid records other than the cancelled one resolve unchanged. -/
theorem lookupBid_cancelBidRecord_ne (caller x : Pubkey)
    (l : List (Pubkey × Bid)) (hx : ¬ x = caller) :
    lookupBid x (cancelBidRecord caller l) = lookupBid x l := by
  induction l with
  | nil => rfl
  | cons p t ih =>
      obtain ⟨k, b⟩ := p
      show lookupBid x
          ((if k = caller then (k, { b with status := BidStatus.Cancelled })
            else (k, b)) :: cancelBidRecord caller t) = lookupBid x ((k, b) :: t)
      by_cases hk : k = caller
      · rw [if_pos hk]
        show (if x = k then some { b with status := BidStatus.Cancelled }
            else lookupBid x (cancelBidRecord caller t)) =
          (if x = k then some b else lookupBid x t)
        rw [if_neg (fun hxk => hx (hxk.trans hk)),
          if_neg (fun hxk => hx (hxk.trans hk))]
        exact ih
      · rw [if_neg hk]
        show (if x = k then some b else lookupBid x (cancelBidRecord caller t)) =
          (if x = k then some b else lookupBid x t)
        by_cases hxk : x = k
        · rw [if_pos hxk, if_pos hxk]
        · rw [if_neg hxk, if_neg hxk]
          exact ih

/-- The cancelled record resolves with only its status rewritten. -/
theorem lookupBid_cancelBidRecord_eq (caller : Pubkey)
    (l : List (Pubkey × Bid)) :
    lookupBid caller (cancelBidRecord caller l) =
      (lookupBid caller l).map
        (fun b => { b with status := BidStatus.Cancelled }) := by
  induction l with
  | nil => rfl
  | cons p t ih =>
      obtain ⟨k, b⟩ := p
      show lookupBid caller
          ((if k = caller then (k, { b with status := BidStatus.Cancelled })
            else (k, b)) :: cancelBidRecord caller t) =
        (lookupBid caller ((k, b) :: t)).map
          (fun b => { b with status := BidStatus.Cancelled })
      by_cases hk : k = caller
      · rw [if_pos hk]
        show (if caller = k then some { b with status := BidStatus.Cancelled }
            else lookupBid caller (cancelBidRecord caller t)) =
          (if caller = k then some b else lookupBid caller t).map
            (fun b => { b with status := BidStatus.Cancelled })
        rw [if_pos hk.symm, if_pos hk.symm]
        rfl
      · rw [if_neg hk]
        show (if caller = k then some b
            else lookupBid caller (cancelBidRecord caller t)) =
          (if caller = k then some b else lookupBid caller t).map
            (fun b => { b with status := BidStatus.Cancelled })
        rw [if_neg (fun h => hk h.symm), if_neg (fun h => hk h.symm)]
        exact ih

/-- C8: cancel_bid succeeds exactly when the caller owns an Active bid
record for this auction and is not the current leader unless the auction
status is Cancelled; on success it sets that Bid record status to
Cancelled and changes nothing else: it moves no funds, and every auction
field, both vault balances, the transfer log and every other bid record
are unchanged. -/
theorem cancel_bid_spec (s : State) (caller : Pubkey) :
    ((∃ s', run (.cancelBid caller) s = .ok s') ↔
      (∃ b, lookupBid caller s.bids = some b ∧ b.bidder = caller ∧
        b.status = BidStatus.Active ∧
        (¬ s.auction.current_bidder = b.bidder ∨
          s.auction.status = AuctionStatus.Cancelled))) ∧
    (∀ s', run (.cancelBid caller) s = .ok s' →
      s'.auction = s.auction ∧
      s'.assetVault = s.assetVault ∧
      s'.paymentVault = s.paymentVault ∧
      s'.log = s.log ∧
      (∀ x, ¬ x = caller → lookupBid x s'.bids = lookupBid x s.bids) ∧
      (∀ b, lookupBid caller s.bids = some b →
        lookupBid caller s'.bids =
          some { b with status := BidStatus.Cancelled })) := by
  constructor
  · constructor
    · rintro ⟨s', hok⟩
      obtain ⟨hex, -⟩ := cancel_bid_ok_elim _ _ _ hok
      exact hex
    · rintro ⟨b, heq, hb1, hb2, hb3⟩
      refine ⟨{ s with bids := cancelBidRecord caller s.bids }, ?_⟩
      show cancel_bid caller s = _
      unfold cancel_bid
      simp only [heq]
      rw [if_neg (not_not_intro hb1), if_neg (not_not_intro hb2),
        if_neg (not_not_intro hb3)]
  · intro s' hok
    obtain ⟨-, ha, hav, hpv, hl, hb⟩ := cancel_bid_ok_elim _ _ _ hok
    refine ⟨ha, hav, hpv, hl, ?_, ?_⟩
    · intro x hx
      rw [hb]
      exact lookupBid_cancelBidRecord_ne caller x s.bids hx
    · intro b heq
      rw [hb, lookupBid_cancelBidRecord_eq, heq]
      rfl

/-- Witness for C1: settling scenario A at time 3600 with highest bid
110 below the reserve 150 takes the failure path and empties both
vaults. -/
theorem settle_auction_dichotomy_witness :
    st2.auction.status = AuctionStatus.Active ∧
    st2.auction.end_time ≤ 3600 ∧
    st2.paymentVault = st2.auction.current_bid ∧
    st2.assetVault = st2.auction.asset_amount ∧
    (st2.auction.current_bid = 0 ↔ st2.auction.current_bidder = 0) ∧
    run (.settleAuction 3600 8 8 1 1 true true) st2 = .ok st2f ∧
    (st2f.assetVault = 0 ∧ st2f.paymentVault = 0 ∧
      (if st2.auction.reserve_price ≤ st2.auction.current_bid ∧
          ¬ st2.auction.current_bidder = 0 then
        st2f.auction.status = AuctionStatus.Settled ∧
        st2f.log = st2.log ++
          [⟨TokenKind.asset, Acct.assetVault,
             Acct.wallet 8, st2.auction.asset_amount⟩,
           ⟨TokenKind.payment, Acct.paymentVault,
             Acct.wallet 1, st2.auction.current_bid⟩]
      else
        st2f.auction.status = AuctionStatus.Failed ∧
        st2f.log = st2.log ++
          [⟨TokenKind.asset, Acct.assetVault, Acct.wallet 1,
             st2.auction.asset_amount⟩] ++
          (if ¬ st2.auction.current_bidder = 0 then
            [⟨TokenKind.payment, Acct.paymentVault,
               Acct.wallet 8, st2.auction.current_bid⟩]
          else []))) :=
  ⟨rfl, by decide, rfl, rfl, by decide, rfl,
    settle_auction_dichotomy st2 st2f 3600 8 8 1 1 true true rfl (by decide)
      rfl rfl (by decide) rfl⟩

/-- Witness for C2: the freshly created scenario A auction is reachable
and satisfies the invariant. -/
theorem auction_state_invariant_witness :
    (st0.auction.current_bid = 0 ↔ st0.auction.current_bidder = 0) ∧
    ((st0.auction.status = AuctionStatus.Created ∨
        st0.auction.status = AuctionStatus.Active) →
      st0.paymentVault = st0.auction.current_bid) ∧
    (¬ (st0.auction.status = AuctionStatus.Created ∨
        st0.auction.status = AuctionStatus.Active) →
      st0.paymentVault = 0) :=
  auction_state_invariant st0
    (Reachable.created 0 1 2 3 5 100 150 10 0 3600 true st0 rfl)

/-- Witness for C3 (amended): on the scenario A auction with standing
bid 100, a bid of 110 by bidder 8 is accepted and strictly raises the
bid by the increment. -/
theorem place_bid_monotonic_witness :
    0 < st1.auction.starting_price ∧
    0 < st1.auction.min_bid_increment ∧
    ((∀ s', run (.placeBid 0 8 110 7 true true) st1 = .ok s' →
      st1.auction.current_bid < s'.auction.current_bid ∧
      s'.auction.current_bid = 110 ∧
      (st1.auction.current_bid = 0 → st1.auction.starting_price ≤ 110) ∧
      (¬ st1.auction.current_bid = 0 →
        st1.auction.current_bid + st1.auction.min_bid_increment ≤ 110)) ∧
    ((lookupBid 8 st1.bids).isSome = false →
      st1.auction.status = AuctionStatus.Active →
      st1.auction.start_time ≤ 0 → 0 < st1.auction.end_time →
      ¬ (8 : Pubkey) = st1.auction.seller →
      (st1.auction.current_bid = 0 → 110 < st1.auction.starting_price) →
      (¬ st1.auction.current_bid = 0 →
        110 < st1.auction.current_bid + st1.auction.min_bid_increment) →
      run (.placeBid 0 8 110 7 true true) st1 =
        .error (.program .BidTooLow))) :=
  ⟨by decide, by decide,
    place_bid_monotonic st1 0 8 110 7 true true (by decide) (by decide)⟩

/-- Witness for C4: settling scenario A before its end time fails with
the auction-not-ended error and commits no change at all. -/
theorem op_error_rollback_witness :
    run (.settleAuction 0 8 8 1 1 true true) st0 =
      .error (.program .AuctionNotEnded) ∧
    ((commit (.settleAuction 0 8 8 1 1 true true) st0).auction = st0.auction ∧
     (commit (.settleAuction 0 8 8 1 1 true true) st0).assetVault = st0.assetVault ∧
     (commit (.settleAuction 0 8 8 1 1 true true) st0).paymentVault = st0.paymentVault ∧
     (commit (.settleAuction 0 8 8 1 1 true true) st0).bids = st0.bids ∧
     (commit (.settleAuction 0 8 8 1 1 true true) st0).log = st0.log) :=
  ⟨rfl, op_error_rollback st0 (.settleAuction 0 8 8 1 1 true true)
    (.program .AuctionNotEnded) rfl⟩

/-- Witness for C5 (amended): the leader of leaderState holds a Bid
record, so any further bid bounces off account initialization. -/
theorem place_bid_rebid_blocked_witness :
    (lookupBid 7 leaderState.bids).isSome = true ∧
    (run (.placeBid 5 7 120 7 true true) leaderState =
      .error .accountAlreadyInitialized ∧
     commit (.placeBid 5 7 120 7 true true) leaderState = leaderState) :=
  ⟨rfl, place_bid_rebid_blocked leaderState 5 7 120 7 true true rfl⟩

/-- Witness for C6: a bid at time 3300 against end time 3600 (margin
300 < 600) moves the end time to exactly 3900. -/
theorem place_bid_antisnipe_witness :
    run (.placeBid 3300 9 100 0 true true) st0 =
      .ok (commit (.placeBid 3300 9 100 0 true true) st0) ∧
    ((st0.auction.end_time - 3300 < 600 →
      (commit (.placeBid 3300 9 100 0 true true) st0).auction.end_time =
        3300 + 600) ∧
     (600 ≤ st0.auction.end_time - 3300 →
      (commit (.placeBid 3300 9 100 0 true true) st0).auction.end_time =
        st0.auction.end_time)) :=
  ⟨rfl, place_bid_antisnipe st0 (commit (.placeBid 3300 9 100 0 true true) st0)
    3300 9 100 0 true true rfl⟩

/-- Witness for C7: the bid-free scenario A auction cancels exactly
under the stated preconditions. -/
theorem cancel_auction_spec_witness :
    st0.auction.asset_amount ≤ st0.assetVault ∧
    (((∃ s', run (.cancelAuction 1 true) st0 = .ok s') ↔
      ((st0.auction.status = AuctionStatus.Created ∨
          st0.auction.status = AuctionStatus.Active) ∧
        (1 : Pubkey) = st0.auction.seller ∧
        (st0.auction.total_bids = 0 ∨ st0.auction.current_bid = 0))) ∧
    (∀ s', run (.cancelAuction 1 true) st0 = .ok s' →
      s'.auction.status = AuctionStatus.Cancelled ∧
      s'.paymentVault = st0.paymentVault ∧
      s'.assetVault = st0.assetVault - st0.auction.asset_amount ∧
      s'.log = st0.log ++
        [⟨TokenKind.asset, Acct.assetVault, Acct.wallet st0.auction.seller,
           st0.auction.asset_amount⟩]) ∧
    ((st0.auction.status = AuctionStatus.Created ∨
        st0.auction.status = AuctionStatus.Active) →
      (1 : Pubkey) = st0.auction.seller →
      0 < st0.auction.total_bids → ¬ st0.auction.current_bid = 0 →
      run (.cancelAuction 1 true) st0 =
        .error (.program .HasActiveBids))) :=
  ⟨by decide, cancel_auction_spec st0 1 (by decide)⟩

/-- Witness for C8: in scenario A after two bids, the outbid bidder 7
can cancel their record, and only its status changes. -/
theorem cancel_bid_spec_witness :
    ((∃ s', run (.cancelBid 7) st2 = .ok s') ↔
      (∃ b, lookupBid 7 st2.bids = some b ∧ b.bidder = 7 ∧
        b.status = BidStatus.Active ∧
        (¬ st2.auction.current_bidder = b.bidder ∨
          st2.auction.status = AuctionStatus.Cancelled))) ∧
    (∀ s', run (.cancelBid 7) st2 = .ok s' →
      s'.auction = st2.auction ∧
      s'.assetVault = st2.assetVault ∧
      s'.paymentVault = st2.paymentVault ∧
      s'.log = st2.log ∧
      (∀ x, ¬ x = 7 → lookupBid x s'.bids = lookupBid x st2.bids) ∧
      (∀ b, lookupBid 7 st2.bids = some b →
        lookupBid 7 s'.bids =
          some { b with status := BidStatus.Cancelled })) :=
  cancel_bid_spec st2 7

/-- Witness for C9: a manual extension of scenario A from 3600 to 5000
respects monotonicity. -/
theorem end_time_monotone_witness :
    run (.extendAuction 1 1 5000) st0 =
      .ok (commit (.extendAuction 1 1 5000) st0) ∧
    (st0.auction.end_time ≤
        (commit (.extendAuction 1 1 5000) st0).auction.end_time ∧
      (Op.mutatesEndTime (.extendAuction 1 1 5000) = false →
        (commit (.extendAuction 1 1 5000) st0).auction.end_time =
          st0.auction.end_time)) :=
  ⟨rfl, end_time_monotone st0 (commit (.extendAuction 1 1 5000) st0)
    (.extendAuction 1 1 5000) rfl⟩

/-- Witness for C10: failed settlement of scenario A leaves every
auction field except status, and every bid record, unchanged. -/
theorem settle_auction_frame_witness :
    run (.settleAuction 3600 8 8 1 1 true true) st2 = .ok st2f ∧
    (st2f.auction.seller = st2.auction.seller ∧
     st2f.auction.asset_mint = st2.auction.asset_mint ∧
     st2f.auction.payment_mint = st2.auction.payment_mint ∧
     st2f.auction.asset_amount = st2.auction.asset_amount ∧
     st2f.auction.starting_price = st2.auction.starting_price ∧
     st2f.auction.reserve_price = st2.auction.reserve_price ∧
     st2f.auction.min_bid_increment = st2.auction.min_bid_increment ∧
     st2f.auction.current_bid = st2.auction.current_bid ∧
     st2f.auction.current_bidder = st2.auction.current_bidder ∧
     st2f.auction.start_time = st2.auction.start_time ∧
     st2f.auction.end_time = st2.auction.end_time ∧
     st2f.auction.total_bids = st2.auction.total_bids ∧
     st2f.auction.created_at = st2.auction.created_at ∧
     st2f.bids = st2.bids) :=
  ⟨rfl, settle_auction_frame st2 st2f 3600 8 8 1 1 true true rfl⟩

end AuctionModel
